import Mathlib

/-!
Verification of the ESRF C208/P201 counter/timer kernel driver core
(`driver/ct2/linux/driver/src/ct2.c`, `ct2-dev.h`, `ct2-dcc.h`,
`lib/include/esrf/ct2.h`) against its natural-language design document.

The driver state and operations are shallowly embedded: each C function
that a claim refers to is translated into a pure Lean function over an
explicit state record, machine integers become `Nat`/`Int` with explicit
wrap-around where it matters, and fallible calls return `Except`.
-/

set_option autoImplicit false

namespace CT2

/-- The errno values the driver core returns, by name
(`-EACCES`, `-EBUSY`, ...). -/
inductive Err where
  | EACCES
  | EBUSY
  | EINVAL
  | EFAULT
  | ENOSYS
  | ENXIO_errno
  | ENOMEM
  | EAGAIN
  deriving DecidableEq

/-- A session is identified by its DCC (open file description); we model
DCC identity by a natural number.  The C `NULL` pointer for "no DCC" is
`Option.none`. -/
abbrev Session := Nat

/-- `struct ct2::dccs` — the exclusivity-arbiter state of one device:
the list of open DCCs, the DCC holding exclusive access (`blessed`,
`NULL` = nobody), and the Scaler Values FIFO mmap count (`blessed_fmc`,
a C `size_t`; modelled as `Int` so that non-negativity is a statement
and a stray decrement would be visible). -/
structure Dccs where
  sessions : List Session
  blessed : Option Session
  blessed_fmc : Int

/-- `ct2_dccs_init` — `blessed = NULL`, `blessed_fmc = 0`, empty DCC list. -/
def ct2_dccs_init : Dccs :=
  { sessions := [], blessed := none, blessed_fmc := 0 }

/-- `ct2_grant_xaccess`: `dev->dccs.blessed = dcc`. -/
def ct2_grant_xaccess (d : Dccs) (s : Session) : Dccs :=
  { d with blessed := some s }

/-- `ct2_revoke_xaccess`: `dev->dccs.blessed = NULL`. -/
def ct2_revoke_xaccess (d : Dccs) : Dccs :=
  { d with blessed := none }

/-- `ct2_observes_xaccess`: `dev->dccs.blessed != NULL`. -/
def ct2_observes_xaccess (d : Dccs) : Bool :=
  d.blessed.isSome

/-- `ct2_add_mmap`: `dev->dccs.blessed_fmc += 1`. -/
def ct2_add_mmap (d : Dccs) : Dccs :=
  { d with blessed_fmc := d.blessed_fmc + 1 }

/-- `ct2_remove_mmap`: `dev->dccs.blessed_fmc -= 1`. -/
def ct2_remove_mmap (d : Dccs) : Dccs :=
  { d with blessed_fmc := d.blessed_fmc - 1 }

/-- `ct2_is_mmapped`: `dev->dccs.blessed_fmc > 0`. -/
def ct2_is_mmapped (d : Dccs) : Bool :=
  0 < d.blessed_fmc

/-- `ct2_dcc_has_xaccess`: `dev->dccs.blessed == dcc` (a DCC is never
the `NULL` pointer, so this is false whenever nobody is blessed). -/
def ct2_dcc_has_xaccess (d : Dccs) (s : Session) : Bool :=
  d.blessed = some s

/-- `ct2_dcc_may_change_dev_state`:
`(dev->dccs.blessed == NULL) || ct2_dcc_has_xaccess(dev, dcc)`. -/
def ct2_dcc_may_change_dev_state (d : Dccs) (s : Session) : Bool :=
  d.blessed = none || ct2_dcc_has_xaccess d s

/-- `grant_exclusive_access` (ioctl `CT2_IOC_QXA`): refuse with `EACCES`
unless the caller may change the device state, else bless the caller. -/
def grant_exclusive_access (d : Dccs) (s : Session) : Except Err Unit × Dccs :=
  if ¬ ct2_dcc_may_change_dev_state d s then (.error .EACCES, d)
  else (.ok (), ct2_grant_xaccess d s)

/-- `revoke_exclusive_access` (ioctl `CT2_IOC_LXA`): if access is
granted at all, refuse with `EACCES` unless the caller is the holder,
then refuse with `EBUSY` while the FIFO is mmapped, else unbless;
if nobody holds access, succeed as a no-op. -/
def revoke_exclusive_access (d : Dccs) (s : Session) : Except Err Unit × Dccs :=
  if ct2_observes_xaccess d then
    if ¬ ct2_dcc_has_xaccess d s then (.error .EACCES, d)
    else if ct2_is_mmapped d then (.error .EBUSY, d)
    else (.ok (), ct2_revoke_xaccess d)
  else (.ok (), d)

/-- `ct2_open` (successful allocation path): a new DCC joins the
device's DCC list; the arbiter fields are untouched. -/
def ct2_open (d : Dccs) (s : Session) : Except Err Unit × Dccs :=
  (.ok (), { d with sessions := s :: d.sessions })

/-- `ct2_close`: a holder may not close while the FIFO is mmapped
(`EBUSY`); closing the holder revokes its access; in either successful
case the DCC leaves the list. -/
def ct2_close (d : Dccs) (s : Session) : Except Err Unit × Dccs :=
  if ct2_dcc_has_xaccess d s then
    if ct2_is_mmapped d then (.error .EBUSY, d)
    else (.ok (), { ct2_revoke_xaccess d with sessions := d.sessions.erase s })
  else (.ok (), { d with sessions := d.sessions.erase s })

/-- The caller-controlled shape of an `mmap(2)` request:
`vma->vm_flags & (VM_WRITE|VM_EXEC)`, `vma->vm_pgoff << PAGE_SHIFT`,
and `vma->vm_end - vma->vm_start`. -/
structure MmapReq where
  vm_write : Bool
  vm_exec : Bool
  map_offset : Nat
  map_length : Nat

/-- `ct2_mmap`: reject writable/executable requests and requests past
the FIFO PCI region (`pci_resource_len`, the hardware-advertised
extent) with `EINVAL`; reject non-holders with `EACCES`; a failing
`io_remap_pfn_range` (modelled by `remap = some e`) propagates without
counting; otherwise `ct2_add_mmap`. -/
def ct2_mmap (d : Dccs) (s : Session) (fifo_res_len : Nat) (req : MmapReq)
    (remap : Option Err) : Except Err Unit × Dccs :=
  if req.vm_write || req.vm_exec
      || decide (fifo_res_len < req.map_offset + req.map_length) then
    (.error .EINVAL, d)
  else if ¬ ct2_dcc_has_xaccess d s then (.error .EACCES, d)
  else
    match remap with
    | some e => (.error e, d)
    | none => (.ok (), ct2_add_mmap d)

/-- `ct2_vma_ops_open`: the kernel duplicated a live FIFO mapping
(fork/split); count it. -/
def ct2_vma_ops_open (d : Dccs) : Dccs :=
  ct2_add_mmap d

/-- `ct2_vma_ops_close`: one FIFO mapping went away; uncount it. -/
def ct2_vma_ops_close (d : Dccs) : Dccs :=
  ct2_remove_mmap d

/-- One arbiter-relevant device operation, with the caller-controlled
inputs each one takes. -/
inductive Op where
  | opn (s : Session)
  | cls (s : Session)
  | grant (s : Session)
  | revoke (s : Session)
  | fmap (s : Session) (fifo_res_len : Nat) (req : MmapReq) (remap : Option Err)
  | fdup
  | funmap

/-- Effect of one operation on the arbiter state (failed operations
leave the state as the C functions leave it). -/
def applyOp (d : Dccs) : Op → Dccs
  | .opn s => (ct2_open d s).2
  | .cls s => (ct2_close d s).2
  | .grant s => (grant_exclusive_access d s).2
  | .revoke s => (revoke_exclusive_access d s).2
  | .fmap s len req remap => (ct2_mmap d s len req remap).2
  | .fdup => ct2_vma_ops_open d
  | .funmap => ct2_vma_ops_close d

/-- Host-kernel discipline on when an operation can be issued at all:
`vm_operations_struct.open`/`.close` are invoked only on a VMA that
exists, i.e. only while at least one FIFO mapping is live.  Every other
operation may be attempted at any time. -/
def opOK (d : Dccs) : Op → Prop
  | .fdup => 0 < d.blessed_fmc
  | .funmap => 0 < d.blessed_fmc
  | _ => True

/-- Arbiter states reachable from the initial device state by any
sequence of grant/revoke/map/unmap/open/close operations. -/
inductive Reachable : Dccs → Prop where
  | init : Reachable ct2_dccs_init
  | step (d : Dccs) (op : Op) : Reachable d → opOK d op → Reachable (applyOp d op)

/-- The arbiter behaviour of `revoke_exclusive_access` transcribed from
the design document's words: no-op success if no holder; "permission"
if the holder is someone else; "busy" while the FIFO map count is
positive; else clear the holder. -/
def revokeSpec (d : Dccs) (s : Session) : Except Err Unit × Dccs :=
  match d.blessed with
  | none => (.ok (), d)
  | some h =>
    if h ≠ s then (.error .EACCES, d)
    else if 0 < d.blessed_fmc then (.error .EBUSY, d)
    else (.ok (), { d with blessed := none })

/-- `CT2_KMOD_PARAM_DEFAULT_INQ_LENGTH` — default of the `inq_length`
module parameter (`ct2-param.h`). -/
def CT2_KMOD_PARAM_DEFAULT_INQ_LENGTH : Nat := 32

/-- The interrupt-delivery part of the device state that
`enable_device_interrupts` / `disable_device_interrupts` manage:
whether `dev->init_status == DEV_INIT_REQ_INTR`, the capacity of the
notification FIFO (`ct2_inm_fifo_capacity`, meaningful while enabled),
and which DCCs have `CT2_DCC_INM_FLAGS_RCVS_INTR` set. -/
structure IntrSt where
  dccs : Dccs
  intrEnabled : Bool
  fifoCapacity : Nat
  subscribed : List Session

/-- `enable_device_interrupts` (ioctl `CT2_IOC_EDINT`):
`inq_len == 0` selects the `inq_length` module parameter; a caller that
may not change the device state gets `EACCES`; if interrupts are
already enabled the call is a no-op unless the requested capacity
differs from the FIFO's (`EBUSY`); a failed FIFO-storage allocation
gives `EAGAIN`/`ENOMEM` depending on `O_NONBLOCK`; a failed
`ct2_enable_interrupts` (interrupt-line claim, modelled by
`claimIrq = some e`) propagates after the FIFO storage is released;
otherwise the FIFO is installed at the chosen capacity, the init status
advances, and every DCC currently in the list is subscribed. -/
def enable_device_interrupts (st : IntrSt) (s : Session) (inq_len : Nat)
    (inq_length : Nat) (allocOk : Bool) (claimIrq : Option Err)
    (nonblock : Bool) : Except Err Unit × IntrSt :=
  let len := if inq_len = 0 then inq_length else inq_len
  if ¬ ct2_dcc_may_change_dev_state st.dccs s then (.error .EACCES, st)
  else if st.intrEnabled then
    if st.fifoCapacity ≠ len then (.error .EBUSY, st) else (.ok (), st)
  else if ¬ allocOk then
    (.error (if nonblock then .EAGAIN else .ENOMEM), st)
  else
    match claimIrq with
    | some e => (.error e, st)
    | none =>
      (.ok (), { st with intrEnabled := true, fifoCapacity := len,
                         subscribed := st.dccs.sessions })

/-- `attach_inq` — stub: `return -ENOSYS;`. -/
def attach_inq (_q_len : Nat) : Except Err Unit :=
  .error .ENOSYS

/-- `detach_inq` — stub with a `void` return type and an empty body. -/
def detach_inq : Unit := ()

/-- `drain_inq` — stub: `return -ENOSYS;`. -/
def drain_inq : Except Err Unit :=
  .error .ENOSYS

/-- `flush_inq` — stub: `return -ENOSYS;`. -/
def flush_inq (_ts : Nat) : Except Err Unit :=
  .error .ENOSYS

/-- The four per-session notification-queue ioctl commands. -/
inductive InqCmd where
  | AINQ
  | DINQ
  | RINQ
  | FINQ

/-- The `ct2_ioctl` switch restricted to the four INQ commands, with
`rv` initialised to `0`:
`CT2_IOC_AINQ` sets `rv = attach_inq(...)`;
`CT2_IOC_DINQ` merely calls the void `detach_inq` and leaves `rv == 0`;
`CT2_IOC_RINQ` sets `rv = drain_inq(...)`;
`CT2_IOC_FINQ` sets `rv = flush_inq(...)`. -/
def ct2_ioctl_inq (cmd : InqCmd) (user_arg : Nat) : Except Err Unit :=
  match cmd with
  | .AINQ => attach_inq user_arg
  | .DINQ => let _ := detach_inq; .ok ()
  | .RINQ => drain_inq
  | .FINQ => flush_inq user_arg

/-- `struct ct2_in` — one interrupt notification: the OR-accumulated
`CTRL_IT` bits and a `timespec` stamp (raw monotonic clock value,
abstracted to one number). -/
structure Ct2In where
  ctrl_it : Nat
  stamp : Nat

/-- The slice of a DCC that `acknowledge_interrupt` touches:
the `CT2_DCC_INM_FLAGS_HAS_INQ` flag and the accumulated IN object
(`dcc->inm.u.in`: bits plus last-update stamp). -/
structure DccInm where
  hasInq : Bool
  inObj : Ct2In

/-- `ct2_dcc_get_const_in_ref` — read the DCC's IN object. -/
def ct2_dcc_get_const_in_ref (dcc : DccInm) : Ct2In :=
  dcc.inObj

/-- `ct2_dcc_mark_in_as_read` — zero the accumulated bits and restamp
with the current raw monotonic time. -/
def ct2_dcc_mark_in_as_read (dcc : DccInm) (now : Nat) : DccInm :=
  { dcc with inObj := { ctrl_it := 0, stamp := now } }

/-- `acknowledge_interrupt` (ioctl `CT2_IOC_ACKINT`): `ENXIO` if an INQ
is attached; then the IN object is copied out to userland — a faulting
copy (`copyFails`) returns `EFAULT` with the DCC untouched — and only
after a successful copy is the accumulator voided via
`ct2_dcc_mark_in_as_read`. -/
def acknowledge_interrupt (dcc : DccInm) (copyFails : Bool) (now : Nat) :
    Except Err Ct2In × DccInm :=
  if dcc.hasInq then (.error .ENXIO_errno, dcc)
  else if copyFails then (.error .EFAULT, dcc)
  else (.ok (ct2_dcc_get_const_in_ref dcc), ct2_dcc_mark_in_as_read dcc now)

/-- `ct2_reg_dist_t` lookup table over one 64-register file, as a
total map from register offset to run length (entries outside the file
are never consulted). -/
abbrev Lut := Nat → Nat

/-- Point update of a LUT (`lut[i] = v`). -/
def lut_update (lut : Lut) (i v : Nat) : Lut :=
  fun r => if r = i then v else lut r

/-- The loop body of `define_lut_entries`, recursing on the remaining
iteration count `upper - lower`:
`while (lower < upper) { lut[lower] = (upper - lower) + 1; lower++; }
lut[upper] = 1;`. -/
def define_lut_go : Nat → Lut → Nat → Nat → Lut
  | 0, lut, _, upper => lut_update lut upper 1
  | n + 1, lut, lower, upper =>
    define_lut_go n (lut_update lut lower ((upper - lower) + 1)) (lower + 1) upper

/-- `define_lut_entries` — fill the interval `[lower, upper]` of a LUT
with the distances to `upper` inclusive. -/
def define_lut_entries (lut : Lut) (lower upper : Nat) : Lut :=
  define_lut_go (upper - lower) lut lower upper

/-- `clear_ct2_reg_lut` — `memset(..., 0x0, ...)`. -/
def clear_ct2_reg_lut : Lut :=
  fun _ => 0

/-
Register offsets in register units, read off `struct ct2_r1` and
`struct ct2_r2` in `esrf/ct2.h` (each register is one `ct2_reg_t`;
`ct2_reg_offset(spc, reg) = offsetof(struct ct2_rspc, reg) / 4`).
-/

/-- `ct2_reg_offset(1, com_gene)` -/
def com_gene : Nat := 0

/-- `ct2_reg_offset(1, ctrl_gene)` -/
def ctrl_gene : Nat := 1

/-- `ct2_reg_offset(1, niveau_out)` -/
def niveau_out : Nat := 3

/-- `ct2_reg_offset(1, adapt_50)` -/
def adapt_50 : Nat := 4

/-- `ct2_reg_offset(1, soft_out)` -/
def soft_out : Nat := 5

/-- `ct2_reg_offset(1, cmd_dma)` -/
def cmd_dma : Nat := 8

/-- `ct2_reg_offset(1, ctrl_fifo_dma)` — read has side effects. -/
def ctrl_fifo_dma : Nat := 9

/-- `ct2_reg_offset(1, source_it[i])` -/
def source_it (i : Nat) : Nat := 10 + i

/-- `ct2_reg_offset(1, ctrl_it)` -/
def ctrl_it_off : Nat := 12

/-- `ct2_reg_offset(1, p201_niveau_in)` -/
def p201_niveau_in : Nat := 13

/-- `ct2_reg_offset(1, rd_cmpt[i])` -/
def rd_cmpt (i : Nat) : Nat := 16 + i

/-- `ct2_reg_offset(1, rd_latch_cmpt[i])` -/
def rd_latch_cmpt (i : Nat) : Nat := 28 + i

/-- `ct2_reg_offset(1, p201_test_reg)` — read has side effects. -/
def p201_test_reg : Nat := 63

/-- `ct2_reg_offset(2, sel_filtre_input[i])` -/
def sel_filtre_input (i : Nat) : Nat := i

/-- `ct2_reg_offset(2, p201_sel_filtre_output)` -/
def p201_sel_filtre_output : Nat := 4

/-- `ct2_reg_offset(2, p201_sel_source_output)` -/
def p201_sel_source_output : Nat := 7

/-- `ct2_reg_offset(2, conf_cmpt[i])` -/
def conf_cmpt (i : Nat) : Nat := 14 + i

/-- `ct2_reg_offset(2, compare_cmpt[i])` -/
def compare_cmpt (i : Nat) : Nat := 29 + i

/-- Hardware variant tag. -/
inductive Variant where
  | c208
  | p201

/-- Register file (PCI I/O Space) selector. -/
inductive Spc where
  | r1
  | r2

/-- Transfer direction a LUT is built for. -/
inductive Dir where
  | rd
  | wr

/-- The `(lower, upper)` arguments of the `define_ct2_reg_lut_range`
calls in `init_ct2_register_range_luts`, per variant, register file and
direction, in call order; `tst` is the `enable_p201_test_reg` module
parameter (default `false`). -/
def ct2_lut_spans (v : Variant) (spc : Spc) (rw : Dir) (tst : Bool) :
    List (Nat × Nat) :=
  match v, spc, rw with
  | .c208, .r1, .rd =>
    [(com_gene, source_it 1), (rd_cmpt 0, rd_latch_cmpt 11)]
  | .c208, .r1, .wr =>
    [(com_gene, com_gene), (niveau_out, soft_out), (cmd_dma, cmd_dma),
     (source_it 0, source_it 1)]
  | .c208, .r2, .rd =>
    [(sel_filtre_input 0, conf_cmpt 11), (compare_cmpt 0, compare_cmpt 11)]
  | .c208, .r2, .wr =>
    [(sel_filtre_input 0, compare_cmpt 11)]
  | .p201, .r1, .rd =>
    [(com_gene, ctrl_gene), (niveau_out, source_it 1),
     (p201_niveau_in, p201_niveau_in), (rd_cmpt 0, rd_latch_cmpt 11)]
      ++ (if tst then [(p201_test_reg, p201_test_reg)] else [])
  | .p201, .r1, .wr =>
    [(com_gene, com_gene), (niveau_out, soft_out), (cmd_dma, cmd_dma),
     (source_it 0, source_it 1), (p201_niveau_in, p201_niveau_in)]
      ++ (if tst then [(p201_test_reg, p201_test_reg)] else [])
  | .p201, .r2, .rd =>
    [(sel_filtre_input 0, sel_filtre_input 1),
     (p201_sel_filtre_output, p201_sel_filtre_output),
     (p201_sel_source_output, conf_cmpt 11),
     (compare_cmpt 0, compare_cmpt 11)]
  | .p201, .r2, .wr =>
    [(sel_filtre_input 0, sel_filtre_input 1),
     (p201_sel_filtre_output, p201_sel_filtre_output),
     (p201_sel_source_output, compare_cmpt 11)]

/-- One LUT of `init_ct2_register_range_luts`: start from the cleared
LUT and run `define_lut_entries` over the declared ranges in call
order. -/
def init_ct2_register_range_lut (v : Variant) (spc : Spc) (rw : Dir)
    (tst : Bool) : Lut :=
  (ct2_lut_spans v spc rw tst).foldl
    (fun lut p => define_lut_entries lut p.1 p.2) clear_ct2_reg_lut

/-- `sizeof(ct2_reg_t)`. -/
def CT2_REG_SIZE : Nat := 4

/-- `CT2_RW_R1_LEN` / `CT2_RW_R2_LEN` — each register file spans 64
register units of the flattened RW map. -/
def CT2_RW_R1_LEN : Nat := 64

/-- `CT2_RW_R2_LEN`. -/
def CT2_RW_R2_LEN : Nat := 64

/-- `CT2_RW_RMAP_LEN = CT2_RW_R2_OFF + CT2_RW_R2_LEN = 128`. -/
def CT2_RW_RMAP_LEN : Nat := 128

/-- `hfl_in_interval_ix(type, x, l, u)` — `l <= x && x < u`. -/
def hfl_in_interval_ix (x l u : Int) : Bool :=
  l ≤ x && x < u

/-- `offset_to_baddr_lut_off` — from a byte offset into the RW map,
the normalised RW-map register offset `(uint8_t)(offset / 4) & 0x7f`,
whether register file 2 is selected (`offset` bit 6 after
normalisation), and the register offset within the selected file
(`rw_rmap_offset & ~(1 << 6)`).  C truncating division and the wrap of
the `uint8_t` cast are explicit. -/
def offset_to_baddr_lut_off (offset : Int) : Nat × Bool × Nat :=
  let rw_rmap_offset := (((Int.tdiv offset (CT2_REG_SIZE : Int)).emod 256).toNat) % 128
  (rw_rmap_offset, decide (64 ≤ rw_rmap_offset), rw_rmap_offset % 64)

/-- `ct2_read_fifo` — direct FIFO read: reading the FIFO changes the
device state, so it requires eligibility; then the registers are
streamed to a kernel buffer and copied out (`EFAULT` on a faulting
user buffer); on success the full byte count is returned. -/
def ct2_read_fifo (d : Dccs) (s : Session) (count : Nat)
    (copyFails : Bool) : Except Err Nat :=
  if ¬ ct2_dcc_may_change_dev_state d s then .error .EACCES
  else if copyFails then .error .EFAULT
  else .ok count

/-- `ct2_read` — register-file read.  `fifoStart`/`fifoEnd` are
`CT2_RW_FIFO_START`/`CT2_RW_FIFO_END` (the byte window of the direct
FIFO read path; its bounds live in a header outside this tree, so they
are parameters here); requests falling entirely inside that window are
diverted to `ct2_read_fifo`.  Otherwise: offsets outside
`[0, CT2_RW_RMAP_LEN * CT2_REG_SIZE)` or with a zero LUT entry give
`EINVAL`; the register count is
`min_t(ct2_reg_dist_t, rlut[roff], count / CT2_REG_SIZE)` — both
arguments are cast to the 8-bit `ct2_reg_dist_t` first; a read range
containing `ctrl_fifo_dma` or `p201_test_reg` requires eligibility
(`EACCES`); a faulting user buffer gives `EFAULT`; on success the
byte count actually read is returned. -/
def ct2_read (d : Dccs) (s : Session) (r1_lut r2_lut : Lut)
    (fifoStart fifoEnd : Int) (offset : Int) (count : Nat)
    (copyFails : Bool) : Except Err Nat :=
  if hfl_in_interval_ix offset fifoStart fifoEnd &&
     hfl_in_interval_ix (offset + (count : Int) - 1) fifoStart fifoEnd then
    ct2_read_fifo d s count copyFails
  else
    let einval := ¬ (hfl_in_interval_ix offset 0 ((CT2_RW_RMAP_LEN * CT2_REG_SIZE : Nat) : Int))
    let p := offset_to_baddr_lut_off offset
    let rw_rmap_offset := p.1
    let rlut := if p.2.1 then r2_lut else r1_lut
    let roff := p.2.2
    if einval ∨ rlut roff = 0 then .error .EINVAL
    else
      let rcount := min (rlut roff % 256) (count / CT2_REG_SIZE % 256)
      let bcount := rcount * CT2_REG_SIZE
      let rrange_contains_R :=
        (rw_rmap_offset ≤ ctrl_fifo_dma ∧ ctrl_fifo_dma < rw_rmap_offset + rcount) ∨
        (rw_rmap_offset ≤ p201_test_reg ∧ p201_test_reg < rw_rmap_offset + rcount)
      if ¬ ct2_dcc_may_change_dev_state d s ∧ rrange_contains_R then .error .EACCES
      else if copyFails then .error .EFAULT
      else .ok bcount

/-- `ct2_write` — register-file write.  Offsets outside the RW map or
with a zero write-LUT entry give `EINVAL`; the register count is
`min_t(ct2_reg_dist_t, wlut[woff], count / CT2_REG_SIZE)`; writing is
always a state-changing operation, so ineligible callers get `EACCES`
(checked before the speculative `copy_from_user` result); a faulting
user buffer gives `EFAULT`; on success the byte count actually written
is returned. -/
def ct2_write (d : Dccs) (s : Session) (r1_lut r2_lut : Lut)
    (offset : Int) (count : Nat) (copyFails : Bool) : Except Err Nat :=
  let einval := ¬ (hfl_in_interval_ix offset 0 ((CT2_RW_RMAP_LEN * CT2_REG_SIZE : Nat) : Int))
  let p := offset_to_baddr_lut_off offset
  let wlut := if p.2.1 then r2_lut else r1_lut
  let woff := p.2.2
  if einval ∨ wlut woff = 0 then .error .EINVAL
  else
    let rcount := min (wlut woff % 256) (count / CT2_REG_SIZE % 256)
    let bcount := rcount * CT2_REG_SIZE
    if ¬ ct2_dcc_may_change_dev_state d s then .error .EACCES
    else if copyFails then .error .EFAULT
    else .ok bcount

/-- `lseek(2)` whence selector (any value other than the three
standard ones falls into the `default:` arm). -/
inductive Whence where
  | seek_set
  | seek_cur
  | seek_end
  | invalid

/-- `ct2_llseek` — compute the target position from `whence`
(`SEEK_SET`: absolute, `SEEK_CUR`: relative to `file->f_pos`,
`SEEK_END`: relative to `CT2_RW_RMAP_LEN`), then replace any position
outside `[0, CT2_RW_RMAP_LEN)` — and any unknown `whence` — by
`-EINVAL` (= `-22`). -/
def ct2_llseek (f_pos offset : Int) (whence : Whence) : Int :=
  match whence with
  | .seek_set =>
    let off : Int := offset
    if ¬ hfl_in_interval_ix off 0 ((CT2_RW_RMAP_LEN : Nat) : Int) then -22 else off
  | .seek_cur =>
    let off : Int := f_pos + offset
    if ¬ hfl_in_interval_ix off 0 ((CT2_RW_RMAP_LEN : Nat) : Int) then -22 else off
  | .seek_end =>
    let off : Int := ((CT2_RW_RMAP_LEN : Nat) : Int) + offset
    if ¬ hfl_in_interval_ix off 0 ((CT2_RW_RMAP_LEN : Nat) : Int) then -22 else off
  | .invalid => -22

/-- The seek target as the design document words it: absolute,
relative, or from-end. -/
def llseek_target (f_pos offset : Int) (whence : Whence) : Int :=
  match whence with
  | .seek_set => offset
  | .seek_cur => f_pos + offset
  | .seek_end => ((CT2_RW_RMAP_LEN : Nat) : Int) + offset
  | .invalid => 0

/-- "`table[offset]`" of the design document: the LUT entry the
read/write path consults for a byte offset — file 2's LUT when the
normalised offset selects register file 2, file 1's otherwise, at the
intra-file register offset. -/
def rw_map_table (r1_lut r2_lut : Lut) (offset : Int) : Nat :=
  (if (offset_to_baddr_lut_off offset).2.1 then r2_lut else r1_lut)
    (offset_to_baddr_lut_off offset).2.2

/-- The device state after: session `0` opens, acquires exclusivity
(`CT2_IOC_QXA`), and `mmap(2)`s the FIFO once (a 64-byte read-only
request on a 4096-byte FIFO region that remaps fine). -/
def mappedState : Dccs :=
  applyOp (applyOp (applyOp ct2_dccs_init (.opn 0)) (.grant 0))
    (.fmap 0 4096 ⟨false, false, 0, 64⟩ none)

/-- `mappedState` after the single FIFO mapping is unmapped again. -/
def unmappedState : Dccs :=
  applyOp mappedState .funmap

/-- A device with one open, unblessed session and interrupts enabled at
notification-FIFO capacity 50. -/
def enabledState50 : IntrSt :=
  { dccs := { sessions := [0], blessed := none, blessed_fmc := 0 },
    intrEnabled := true, fifoCapacity := 50, subscribed := [0] }

end CT2

deriving instance DecidableEq for Except

namespace CT2

/-! ## Theorems -/

/-- **C4.** `revoke_exclusive_access` behaves, for every arbiter state,
exactly as the design document words it: no-op success when no holder
is set; "permission" when the holder is another session; "busy" while
the FIFO map count is positive; otherwise it clears the holder and
succeeds. -/
theorem revoke_exclusive_access_matches_spec (d : Dccs) (s : Session) :
    revoke_exclusive_access d s = revokeSpec d s := by
  cases hb : d.blessed with
  | none =>
    simp [revoke_exclusive_access, revokeSpec, ct2_observes_xaccess, hb]
  | some h =>
    by_cases hs : h = s
    · subst hs
      simp only [revoke_exclusive_access, revokeSpec, ct2_observes_xaccess,
        ct2_dcc_has_xaccess, ct2_is_mmapped, ct2_revoke_xaccess, hb]
      simp
    · simp only [revoke_exclusive_access, revokeSpec, ct2_observes_xaccess,
        ct2_dcc_has_xaccess, ct2_is_mmapped, ct2_revoke_xaccess, hb]
      simp [hs, Ne.symm hs]

/-- **C5 (counterexample).** With session 0 holding exclusivity and one
FIFO mapping live, session 1's revoke fails with `EACCES`
("permission"), not `EBUSY` ("busy") as the claim's scenario states:
the not-the-holder check precedes the mapped check. -/
theorem c5_busy_for_nonholder_is_false :
    (revoke_exclusive_access mappedState 1).1 = .error .EACCES ∧
    (revoke_exclusive_access mappedState 1).1 ≠ .error .EBUSY := by
  decide

/-- **C5 (amended).** In the scenario (A = session 0 opens, acquires
exclusivity, maps the FIFO; B = session 1): while the mapping is live
B's revoke fails with "permission" (B is not the holder) — it is A's
own revoke that fails with "busy" —; after A unmaps, B's revoke still
fails with "permission", and A's own revoke succeeds and clears the
holder. -/
theorem c5_revoke_scenario :
    mappedState.blessed = some 0 ∧ mappedState.blessed_fmc = 1 ∧
    (revoke_exclusive_access mappedState 1).1 = .error .EACCES ∧
    (revoke_exclusive_access mappedState 0).1 = .error .EBUSY ∧
    unmappedState.blessed = some 0 ∧ unmappedState.blessed_fmc = 0 ∧
    (revoke_exclusive_access unmappedState 1).1 = .error .EACCES ∧
    (revoke_exclusive_access unmappedState 0).1 = .ok () ∧
    (revoke_exclusive_access unmappedState 0).2.blessed = none := by
  decide

/-- **C8.** Of the four per-session notification-queue ioctl commands,
`CT2_IOC_AINQ`, `CT2_IOC_RINQ` and `CT2_IOC_FINQ` indeed always return
`ENOSYS`, but `CT2_IOC_DINQ` calls the `void` stub `detach_inq` and
falls through with `rv == 0`, i.e. it returns success — contradicting
both the claim and the driver's own interface documentation
(`esrf/ct2.h`: "CT2_IOC_DINQ ... ENOSYS not implemented"). -/
theorem ct2_ioctl_inq_results (arg : Nat) :
    ct2_ioctl_inq .AINQ arg = .error .ENOSYS ∧
    ct2_ioctl_inq .RINQ arg = .error .ENOSYS ∧
    ct2_ioctl_inq .FINQ arg = .error .ENOSYS ∧
    ct2_ioctl_inq .DINQ arg = .ok () := by
  exact ⟨rfl, rfl, rfl, rfl⟩

/-- One operation preserves the arbiter invariant (non-negative map
count, and a positive map count implies a holder). -/
theorem arb_inv_step (d : Dccs) (op : Op)
    (h0 : 0 ≤ d.blessed_fmc) (h1 : 0 < d.blessed_fmc → d.blessed.isSome)
    (hok : opOK d op) :
    0 ≤ (applyOp d op).blessed_fmc ∧
      (0 < (applyOp d op).blessed_fmc → (applyOp d op).blessed.isSome) := by
  cases op with
  | opn s =>
    exact ⟨h0, h1⟩
  | cls s =>
    simp only [applyOp, ct2_close, ct2_is_mmapped, ct2_dcc_has_xaccess,
      ct2_revoke_xaccess]
    split
    · split
      · exact ⟨h0, h1⟩
      · rename_i hm
        simp only [decide_eq_true_eq] at hm
        refine ⟨h0, fun hpos => absurd hpos hm⟩
    · exact ⟨h0, h1⟩
  | grant s =>
    simp only [applyOp, grant_exclusive_access, ct2_grant_xaccess]
    split
    · exact ⟨h0, h1⟩
    · exact ⟨h0, fun _ => rfl⟩
  | revoke s =>
    simp only [applyOp, revoke_exclusive_access, ct2_observes_xaccess,
      ct2_dcc_has_xaccess, ct2_is_mmapped, ct2_revoke_xaccess]
    split
    · split
      · exact ⟨h0, h1⟩
      · split
        · exact ⟨h0, h1⟩
        · rename_i hm
          simp only [decide_eq_true_eq] at hm
          refine ⟨h0, fun hpos => absurd hpos hm⟩
    · exact ⟨h0, h1⟩
  | fmap s len req remap =>
    simp only [applyOp, ct2_mmap]
    split
    · exact ⟨h0, h1⟩
    · rename_i hx
      split
      · exact ⟨h0, h1⟩
      · rename_i hacc
        rw [not_not] at hacc
        simp only [ct2_dcc_has_xaccess, decide_eq_true_eq] at hacc
        cases remap with
        | some e => exact ⟨h0, h1⟩
        | none =>
          refine ⟨by simp [ct2_add_mmap]; omega, fun _ => ?_⟩
          simp [ct2_add_mmap, hacc]
  | fdup =>
    simp only [opOK] at hok
    exact ⟨by simp [applyOp, ct2_vma_ops_open, ct2_add_mmap]; omega,
           fun _ => by simpa [applyOp, ct2_vma_ops_open, ct2_add_mmap] using h1 hok⟩
  | funmap =>
    simp only [opOK] at hok
    exact ⟨by simp [applyOp, ct2_vma_ops_close, ct2_remove_mmap]; omega,
           fun hpos => by
             simp only [applyOp, ct2_vma_ops_close, ct2_remove_mmap] at hpos ⊢
             exact h1 (by omega)⟩

/-- Every reachable arbiter state satisfies the invariant. -/
theorem arb_inv_reachable (d : Dccs) (h : Reachable d) :
    0 ≤ d.blessed_fmc ∧ (0 < d.blessed_fmc → d.blessed.isSome) := by
  induction h with
  | init => exact ⟨le_refl 0, fun hpos => absurd hpos (by decide)⟩
  | step d op _ hok ih => exact arb_inv_step d op ih.1 ih.2 hok

/-- **C1.** Along every sequence of grant / revoke / FIFO map /
FIFO unmap / open / close operations from the initial device state:
the FIFO map count `blessed_fmc` stays non-negative; at most one DCC is
`blessed` at any time; no `revoke_exclusive_access` call returns
success while the map count is positive; and a positive map count
implies a holder is set. -/
theorem arbiter_invariants (d : Dccs) (h : Reachable d) :
    0 ≤ d.blessed_fmc ∧
    (∀ a b : Session, ct2_dcc_has_xaccess d a → ct2_dcc_has_xaccess d b → a = b) ∧
    (∀ s : Session, 0 < d.blessed_fmc → (revoke_exclusive_access d s).1 ≠ .ok ()) ∧
    (0 < d.blessed_fmc → d.blessed.isSome) := by
  obtain ⟨h0, h1⟩ := arb_inv_reachable d h
  refine ⟨h0, ?_, ?_, h1⟩
  · intro a b ha hb
    simp only [ct2_dcc_has_xaccess, decide_eq_true_eq] at ha hb
    rw [ha] at hb
    exact Option.some_injective _ hb
  · intro s hpos
    obtain ⟨w, hw⟩ := Option.isSome_iff_exists.mp (h1 hpos)
    simp only [revoke_exclusive_access, ct2_observes_xaccess,
      ct2_dcc_has_xaccess, ct2_is_mmapped, hw]
    by_cases hws : w = s
    · subst hws
      simp [hpos]
    · simp [hws]

/-- Witness for C1: the mapped-state scenario (open, grant, map) is
reachable and satisfies all four invariant clauses. -/
theorem arbiter_invariants_witness :
    0 ≤ mappedState.blessed_fmc ∧
    (∀ a b : Session,
        ct2_dcc_has_xaccess mappedState a → ct2_dcc_has_xaccess mappedState b → a = b) ∧
    (∀ s : Session,
        0 < mappedState.blessed_fmc →
          (revoke_exclusive_access mappedState s).1 ≠ .ok ()) ∧
    (0 < mappedState.blessed_fmc → mappedState.blessed.isSome) :=
  arbiter_invariants mappedState
    (Reachable.step _ _
      (Reachable.step _ _ (Reachable.step _ _ Reachable.init True.intro) True.intro)
      True.intro)

/-- The `define_lut_entries` loop, characterised pointwise: filling
`[lower, lower + n]` writes the distance to the upper end (inclusive)
at every offset of the interval and leaves the rest of the LUT
alone. -/
theorem define_lut_go_apply (n : Nat) : ∀ (lut : Lut) (lower r : Nat),
    define_lut_go n lut lower (lower + n) r =
      if lower ≤ r ∧ r ≤ lower + n then lower + n - r + 1 else lut r := by
  induction n with
  | zero =>
    intro lut lower r
    simp only [define_lut_go, lut_update, Nat.add_zero]
    by_cases h : r = lower
    · subst h
      simp
    · rw [if_neg h, if_neg (by omega)]
  | succ n ih =>
    intro lut lower r
    have h1 : lower + (n + 1) = lower + 1 + n := by omega
    simp only [define_lut_go]
    rw [h1, ih]
    simp only [lut_update]
    split_ifs <;> first | rfl | omega

/-- `define_lut_entries lut lower upper` (with `lower ≤ upper`),
pointwise. -/
theorem define_lut_entries_apply (lut : Lut) (lower upper r : Nat)
    (h : lower ≤ upper) :
    define_lut_entries lut lower upper r =
      if lower ≤ r ∧ r ≤ upper then upper - r + 1 else lut r := by
  obtain ⟨n, rfl⟩ : ∃ n, upper = lower + n := ⟨upper - lower, by omega⟩
  rw [define_lut_entries, Nat.add_sub_cancel_left]
  exact define_lut_go_apply n lut lower r

/-- Folding `define_lut_entries` over spans none of which contain `r`
leaves the LUT unchanged at `r`. -/
theorem lut_fold_not_mem (spans : List (Nat × Nat)) : ∀ (lut : Lut) (r : Nat),
    (∀ p ∈ spans, p.1 ≤ p.2) →
    (∀ p ∈ spans, ¬ (p.1 ≤ r ∧ r ≤ p.2)) →
    (spans.foldl (fun l p => define_lut_entries l p.1 p.2) lut) r = lut r := by
  induction spans with
  | nil =>
    intro lut r _ _
    rfl
  | cons q rest ih =>
    intro lut r hle hno
    rw [List.foldl_cons,
        ih _ r (fun p hp => hle p (List.mem_cons_of_mem q hp))
          (fun p hp => hno p (List.mem_cons_of_mem q hp)),
        define_lut_entries_apply _ _ _ _ (hle q (List.mem_cons_self q rest)),
        if_neg (hno q (List.mem_cons_self q rest))]

/-- Folding `define_lut_entries` over pairwise-disjoint spans writes,
at any `r` contained in one of the spans, the distance to that span's
end inclusive. -/
theorem lut_fold_mem (spans : List (Nat × Nat)) :
    ∀ (lut : Lut) (r : Nat) (p : Nat × Nat),
    (∀ q ∈ spans, q.1 ≤ q.2) →
    spans.Pairwise (fun a b => a.2 < b.1 ∨ b.2 < a.1) →
    p ∈ spans → p.1 ≤ r → r ≤ p.2 →
    (spans.foldl (fun l q => define_lut_entries l q.1 q.2) lut) r = p.2 - r + 1 := by
  induction spans with
  | nil =>
    intro lut r p _ _ hp
    exact absurd hp (List.not_mem_nil p)
  | cons q rest ih =>
    intro lut r p hle hdisj hp h1 h2
    rw [List.foldl_cons]
    rcases List.mem_cons.mp hp with rfl | hmem
    · have hno : ∀ a ∈ rest, ¬ (a.1 ≤ r ∧ r ≤ a.2) := by
        intro a ha hcontra
        obtain ⟨hc1, hc2⟩ := hcontra
        rcases (List.pairwise_cons.mp hdisj).1 a ha with hlt | hlt <;> omega
      rw [lut_fold_not_mem rest _ r
            (fun a ha => hle a (List.mem_cons_of_mem _ ha)) hno,
          define_lut_entries_apply _ _ _ _ (hle p (List.mem_cons_self p rest)),
          if_pos ⟨h1, h2⟩]
    · exact ih _ r p (fun a ha => hle a (List.mem_cons_of_mem _ ha))
        (List.pairwise_cons.mp hdisj).2 hmem h1 h2

/-- **C2.** For every hardware variant, register file, direction, value
of the `enable_p201_test_reg` parameter, and register offset `r` of the
file: inside a declared span `(lo, hi)` the built LUT holds
`hi - r + 1` (the distance to the span's end, inclusive), and at every
offset covered by no span it holds `0`. -/
theorem access_table_correct (v : Variant) (spc : Spc) (rw : Dir) (tst : Bool)
    (r : Nat) (hr : r < 64) :
    (∀ p ∈ ct2_lut_spans v spc rw tst, p.1 ≤ r → r ≤ p.2 →
        init_ct2_register_range_lut v spc rw tst r = p.2 - r + 1) ∧
    ((∀ p ∈ ct2_lut_spans v spc rw tst, ¬ (p.1 ≤ r ∧ r ≤ p.2)) →
        init_ct2_register_range_lut v spc rw tst r = 0) := by
  clear hr
  have hle : ∀ p ∈ ct2_lut_spans v spc rw tst, p.1 ≤ p.2 := by
    cases v <;> cases spc <;> cases rw <;> cases tst <;> decide
  have hdisj : (ct2_lut_spans v spc rw tst).Pairwise
      (fun a b => a.2 < b.1 ∨ b.2 < a.1) := by
    cases v <;> cases spc <;> cases rw <;> cases tst <;> decide
  constructor
  · intro p hp h1 h2
    simp only [init_ct2_register_range_lut]
    exact lut_fold_mem _ _ r p hle hdisj hp h1 h2
  · intro hno
    simp only [init_ct2_register_range_lut]
    rw [lut_fold_not_mem _ _ r hle hno]
    rfl

/-- Witness for C2: the C208 I/O Space 1 read LUT at `rd_cmpt[0]`
(offset 16, inside the span up to `rd_latch_cmpt[11]` = 39) holds
`39 - 16 + 1 = 24`. -/
theorem access_table_correct_witness :
    (∀ p ∈ ct2_lut_spans .c208 .r1 .rd false, p.1 ≤ 16 → 16 ≤ p.2 →
        init_ct2_register_range_lut .c208 .r1 .rd false 16 = p.2 - 16 + 1) ∧
    ((∀ p ∈ ct2_lut_spans .c208 .r1 .rd false, ¬ (p.1 ≤ 16 ∧ 16 ≤ p.2)) →
        init_ct2_register_range_lut .c208 .r1 .rd false 16 = 0) :=
  access_table_correct .c208 .r1 .rd false 16 (by decide)

/-- **C6.** `ct2_mmap` succeeds only for the current holder of the
exclusivity token, and a success increments the device-wide map count;
a write/execute request or one that reaches past the
hardware-advertised FIFO extent is rejected with `EINVAL`; a
well-shaped request while nobody holds the token is rejected with
`EACCES`; and an unmap (`ct2_vma_ops_close`) decrements the map
count. -/
theorem ct2_mmap_gating (d : Dccs) (s : Session) (len : Nat)
    (req : MmapReq) (remap : Option Err) (d' : Dccs) :
    (ct2_mmap d s len req remap = (.ok (), d') →
        ct2_dcc_has_xaccess d s = true ∧ d'.blessed_fmc = d.blessed_fmc + 1) ∧
    (req.vm_write = true ∨ req.vm_exec = true ∨ len < req.map_offset + req.map_length →
        ct2_mmap d s len req remap = (.error .EINVAL, d)) ∧
    (¬ (req.vm_write = true ∨ req.vm_exec = true ∨ len < req.map_offset + req.map_length) →
        d.blessed = none → ct2_mmap d s len req remap = (.error .EACCES, d)) ∧
    (ct2_vma_ops_close d).blessed_fmc = d.blessed_fmc - 1 := by
  refine ⟨?_, ?_, ?_, rfl⟩
  · intro hok
    simp only [ct2_mmap] at hok
    split at hok
    · exact absurd hok (by simp)
    · rename_i hshape
      split at hok
      · exact absurd hok (by simp)
      · rename_i hacc
        rw [not_not] at hacc
        cases remap with
        | some e => exact absurd hok (by simp)
        | none =>
          refine ⟨hacc, ?_⟩
          obtain ⟨-, h2⟩ := Prod.mk.injEq .. ▸ hok
          rw [← h2]
          rfl
  · intro hbad
    simp only [ct2_mmap]
    split
    · rfl
    · rename_i hcond
      exfalso
      apply hcond
      rcases hbad with h | h | h
      · simp [h]
      · simp [h]
      · simp [h]
  · intro hgood hnone
    simp only [ct2_mmap]
    split
    · rename_i hcond
      exfalso
      apply hgood
      simp only [Bool.or_eq_true, decide_eq_true_eq] at hcond
      rcases hcond with (h | h) | h
      · exact Or.inl h
      · exact Or.inr (Or.inl h)
      · exact Or.inr (Or.inr h)
    · simp [ct2_dcc_has_xaccess, hnone]

/-- Witness for C6: on the initial state (nobody holds the token) a
well-shaped 64-byte read-only request is refused with `EACCES`, and a
writable request is refused with `EINVAL`. -/
theorem ct2_mmap_gating_witness :
    ct2_mmap ct2_dccs_init 0 4096 ⟨false, false, 0, 64⟩ none =
      (.error .EACCES, ct2_dccs_init) ∧
    ct2_mmap ct2_dccs_init 0 4096 ⟨true, false, 0, 64⟩ none =
      (.error .EINVAL, ct2_dccs_init) :=
  ⟨(ct2_mmap_gating ct2_dccs_init 0 4096 ⟨false, false, 0, 64⟩ none
      ct2_dccs_init).2.2.1 (by decide) rfl,
   (ct2_mmap_gating ct2_dccs_init 0 4096 ⟨true, false, 0, 64⟩ none
      ct2_dccs_init).2.1 (by decide)⟩

/-- **C7.** For an eligible session, `enable_device_interrupts` with
capacity 0 substitutes the `inq_length` module default; while
interrupts are already enabled it is a no-op success when the
(default-substituted) capacity equals the notification FIFO's and fails
with `EBUSY` when it differs; and when interrupts are not yet enabled,
with the FIFO-head allocation and the interrupt-line claim succeeding,
it installs the FIFO at the chosen capacity, records the
interrupts-enabled init status, and subscribes every currently open
DCC. -/
theorem enable_device_interrupts_spec (st : IntrSt) (s : Session)
    (cap inql : Nat) (allocOk : Bool) (claimIrq : Option Err) (nonblock : Bool)
    (helig : ct2_dcc_may_change_dev_state st.dccs s = true) :
    (st.intrEnabled = true →
       (st.fifoCapacity = (if cap = 0 then inql else cap) →
          enable_device_interrupts st s cap inql allocOk claimIrq nonblock =
            (.ok (), st)) ∧
       (st.fifoCapacity ≠ (if cap = 0 then inql else cap) →
          enable_device_interrupts st s cap inql allocOk claimIrq nonblock =
            (.error .EBUSY, st))) ∧
    (st.intrEnabled = false → allocOk = true → claimIrq = none →
       enable_device_interrupts st s cap inql allocOk claimIrq nonblock =
         (.ok (), { st with intrEnabled := true,
                            fifoCapacity := if cap = 0 then inql else cap,
                            subscribed := st.dccs.sessions })) := by
  constructor
  · intro hen
    constructor
    · intro hcap
      simp [enable_device_interrupts, helig, hen, hcap]
    · intro hcap
      simp [enable_device_interrupts, helig, hen, hcap]
  · intro hen halloc hclaim
    subst halloc hclaim
    simp [enable_device_interrupts, helig, hen]

/-- Witness for C7: with interrupts enabled at capacity 50, a second
enable at 50 is a no-op success and an enable at 10 fails with
`EBUSY`. -/
theorem enable_device_interrupts_spec_witness :
    enable_device_interrupts enabledState50 0 50 32 true none false =
      (.ok (), enabledState50) ∧
    enable_device_interrupts enabledState50 0 10 32 true none false =
      (.error .EBUSY, enabledState50) :=
  ⟨((enable_device_interrupts_spec enabledState50 0 50 32 true none false
       (by decide)).1 (by decide)).1 (by decide),
   ((enable_device_interrupts_spec enabledState50 0 10 32 true none false
       (by decide)).1 (by decide)).2 (by decide)⟩

/-- **C10.** `acknowledge_interrupt` is atomic w.r.t. failure: with no
INQ attached, a faulting copy-out returns `EFAULT` and leaves the DCC —
its accumulated bits and both its stamps — exactly as it was, while a
successful copy-out returns the accumulated IN object as it stood and
only then zeroes the accumulator. -/
theorem acknowledge_interrupt_atomic (dcc : DccInm) (copyFails : Bool)
    (now : Nat) (h : dcc.hasInq = false) :
    (copyFails = true →
        acknowledge_interrupt dcc copyFails now = (.error .EFAULT, dcc)) ∧
    (copyFails = false →
        acknowledge_interrupt dcc copyFails now =
          (.ok dcc.inObj, ct2_dcc_mark_in_as_read dcc now) ∧
        (acknowledge_interrupt dcc copyFails now).2.inObj.ctrl_it = 0) := by
  constructor
  · intro hc
    subst hc
    simp [acknowledge_interrupt, h]
  · intro hc
    subst hc
    simp [acknowledge_interrupt, h, ct2_dcc_get_const_in_ref,
      ct2_dcc_mark_in_as_read]

/-- Witness for C10: a DCC with accumulated bits `0x5` and stamp 7,
no INQ attached: the faulting call leaves it untouched, the successful
call hands out `0x5` and clears the accumulator. -/
theorem acknowledge_interrupt_atomic_witness :
    acknowledge_interrupt ⟨false, ⟨5, 7⟩⟩ true 9 =
      (.error .EFAULT, ⟨false, ⟨5, 7⟩⟩) ∧
    acknowledge_interrupt ⟨false, ⟨5, 7⟩⟩ false 9 =
      (.ok ⟨5, 7⟩, ct2_dcc_mark_in_as_read ⟨false, ⟨5, 7⟩⟩ 9) :=
  ⟨(acknowledge_interrupt_atomic ⟨false, ⟨5, 7⟩⟩ true 9 rfl).1 rfl,
   ((acknowledge_interrupt_atomic ⟨false, ⟨5, 7⟩⟩ false 9 rfl).2 rfl).1⟩

/-- **C3 (counterexample).** The claim's truncation law fails for large
requests: at offset 0 of the C208 I/O Space 1 read map
(`table[0] = 12 > 0`) a read of 1024 bytes requests `256` registers —
more than `table[0]` — yet the call returns `0` bytes, not
`table[0] = 12` registers (48 bytes): `min_t(ct2_reg_dist_t, ...)`
first truncates the requested register count to the 8-bit distance
type, and `(uint8_t)256 == 0`. -/
theorem truncation_law_is_false :
    init_ct2_register_range_lut .c208 .r1 .rd false 0 = 12 ∧
    1024 / CT2_REG_SIZE = 256 ∧
    ct2_read ct2_dccs_init 0 (init_ct2_register_range_lut .c208 .r1 .rd false)
      (init_ct2_register_range_lut .c208 .r2 .rd false) 2048 4096 0 1024 false =
      .ok 0 ∧
    ct2_read ct2_dccs_init 0 (init_ct2_register_range_lut .c208 .r1 .rd false)
      (init_ct2_register_range_lut .c208 .r2 .rd false) 2048 4096 0 1024 false ≠
      .ok (12 * CT2_REG_SIZE) := by
  decide

/-- **C3 (amended).** For an eligible session, at an offset inside the
RW map that is not diverted to the direct-FIFO read path, with a
non-faulting user buffer: when `table[offset] ≠ 0` both read and write
transfer `min(table[offset], (requested registers) mod 256)` registers
— the requested count `count / 4` is truncated to the 8-bit
`ct2_reg_dist_t` before the min — and return that many bytes as a
success; when `table[offset] = 0` both fail with `EINVAL`. -/
theorem read_write_truncation (d : Dccs) (s : Session) (r1_lut r2_lut : Lut)
    (fifoStart fifoEnd offset : Int) (count : Nat)
    (helig : ct2_dcc_may_change_dev_state d s = true)
    (hnf : (hfl_in_interval_ix offset fifoStart fifoEnd &&
            hfl_in_interval_ix (offset + (count : Int) - 1) fifoStart fifoEnd) = false)
    (hoff : hfl_in_interval_ix offset 0 ((CT2_RW_RMAP_LEN * CT2_REG_SIZE : Nat) : Int) = true)
    (hlt : rw_map_table r1_lut r2_lut offset < 256) :
    (rw_map_table r1_lut r2_lut offset ≠ 0 →
        ct2_read d s r1_lut r2_lut fifoStart fifoEnd offset count false =
          .ok (min (rw_map_table r1_lut r2_lut offset)
                 (count / CT2_REG_SIZE % 256) * CT2_REG_SIZE) ∧
        ct2_write d s r1_lut r2_lut offset count false =
          .ok (min (rw_map_table r1_lut r2_lut offset)
                 (count / CT2_REG_SIZE % 256) * CT2_REG_SIZE)) ∧
    (rw_map_table r1_lut r2_lut offset = 0 →
        ct2_read d s r1_lut r2_lut fifoStart fifoEnd offset count false =
          .error .EINVAL ∧
        ct2_write d s r1_lut r2_lut offset count false = .error .EINVAL) := by
  rw [rw_map_table] at hlt ⊢
  simp only [Nat.cast_mul] at hoff
  constructor
  · intro htab
    constructor
    · simp [ct2_read, hnf, hoff, helig, htab, Nat.mod_eq_of_lt hlt]
    · simp [ct2_write, hoff, helig, htab, Nat.mod_eq_of_lt hlt]
  · intro htab
    constructor
    · simp [ct2_read, hnf, hoff, htab]
    · simp [ct2_write, hoff, htab]

/-- Witness for C3 (amended): session 0 on the fresh device (nobody
blessed, hence eligible), C208 read LUTs, offset 0 (`table[0] = 12`),
a 40-byte (10-register) request away from the FIFO window: both paths
transfer `min(12, 10) = 10` registers, i.e. 40 bytes. -/
theorem read_write_truncation_witness :
    ct2_read ct2_dccs_init 0 (init_ct2_register_range_lut .c208 .r1 .rd false)
      (init_ct2_register_range_lut .c208 .r2 .rd false) 2048 4096 0 40 false =
      .ok (min (rw_map_table (init_ct2_register_range_lut .c208 .r1 .rd false)
                  (init_ct2_register_range_lut .c208 .r2 .rd false) 0)
             (40 / CT2_REG_SIZE % 256) * CT2_REG_SIZE) ∧
    ct2_write ct2_dccs_init 0 (init_ct2_register_range_lut .c208 .r1 .rd false)
      (init_ct2_register_range_lut .c208 .r2 .rd false) 0 40 false =
      .ok (min (rw_map_table (init_ct2_register_range_lut .c208 .r1 .rd false)
                  (init_ct2_register_range_lut .c208 .r2 .rd false) 0)
             (40 / CT2_REG_SIZE % 256) * CT2_REG_SIZE) :=
  (read_write_truncation ct2_dccs_init 0
      (init_ct2_register_range_lut .c208 .r1 .rd false)
      (init_ct2_register_range_lut .c208 .r2 .rd false) 2048 4096 0 40
      (by decide) (by decide) (by decide) (by decide)).1 (by decide)

/-- **C9 (counterexample).** Seeking to absolute position 200 (past the
end of the flattened register map) does not yield a position clamped
into `[0, CT2_RW_RMAP_LEN)`: `ct2_llseek` answers `-EINVAL`
(`= -22`). -/
theorem seek_clamping_is_false :
    ct2_llseek 0 200 .seek_set = -22 ∧
    ¬ (0 ≤ ct2_llseek 0 200 .seek_set ∧
       ct2_llseek 0 200 .seek_set < ((CT2_RW_RMAP_LEN : Nat) : Int)) := by
  decide

/-- **C9 (amended).** For every starting position, offset and whence
mode, `ct2_llseek` either fails with `-EINVAL` — which it does whenever
the computed target position falls outside `[0, CT2_RW_RMAP_LEN)` or
the whence mode is unknown; out-of-range targets are rejected, not
clamped — or returns the computed target position, which then lies
within `[0, CT2_RW_RMAP_LEN)`. -/
theorem ct2_llseek_range (f_pos offset : Int) (whence : Whence) :
    ct2_llseek f_pos offset whence = -22 ∨
    (ct2_llseek f_pos offset whence = llseek_target f_pos offset whence ∧
     0 ≤ ct2_llseek f_pos offset whence ∧
     ct2_llseek f_pos offset whence < ((CT2_RW_RMAP_LEN : Nat) : Int)) := by
  cases whence with
  | invalid => exact Or.inl rfl
  | seek_set =>
    simp only [ct2_llseek, llseek_target, hfl_in_interval_ix]
    split
    · exact Or.inl rfl
    · rename_i h
      rw [not_not, Bool.and_eq_true, decide_eq_true_eq, decide_eq_true_eq] at h
      exact Or.inr ⟨rfl, h.1, h.2⟩
  | seek_cur =>
    simp only [ct2_llseek, llseek_target, hfl_in_interval_ix]
    split
    · exact Or.inl rfl
    · rename_i h
      rw [not_not, Bool.and_eq_true, decide_eq_true_eq, decide_eq_true_eq] at h
      exact Or.inr ⟨rfl, h.1, h.2⟩
  | seek_end =>
    simp only [ct2_llseek, llseek_target, hfl_in_interval_ix]
    split
    · exact Or.inl rfl
    · rename_i h
      rw [not_not, Bool.and_eq_true, decide_eq_true_eq, decide_eq_true_eq] at h
      exact Or.inr ⟨rfl, h.1, h.2⟩

end CT2
